import Mathlib

/-!
Verification of `crates/sui-types/src/digests.rs`: the canonical 32-byte
`Digest` and its six domain wrapper types (checkpoint, checkpoint contents,
transaction, transaction effects, transaction events, object), their base-58
text codec, ordering, sentinels and conversions.

Bytes are modelled as `Nat` values; a Rust `[u8; 32]` is a `List Nat` of
length 32 whose entries are `< 256` (the predicate `ValidBytes`).
-/

namespace Sui

/-! ### Base-58 codec (fastcrypto `Base58`, i.e. the `bs58` crate with the
Bitcoin alphabet).  Encoding: one '1' per leading zero byte, then the
big-endian base-58 digits of the remaining value.  Decoding: error on any
character outside the alphabet; otherwise one zero byte per leading '1' and
the big-endian base-256 bytes of the value of the whole string. -/

def alphabet : List Char :=
  "123456789ABCDEFGHJKLMNPQRSTUVWXYZabcdefghijkmnopqrstuvwxyz".toList

/-- The character for base-58 digit `d`. -/
def digitChar (d : Nat) : Char := alphabet.getD d ' '

/-- The base-58 digit of a character, `none` when the character is not in
the alphabet (a `bs58` decode error). -/
def charDigit (c : Char) : Option Nat := alphabet.findIdx? (· == c)

/-- Fuel-driven little-endian base conversion (structural recursion so the
kernel can evaluate it). -/
def toDigitsAux (b : Nat) : Nat → Nat → List Nat
  | 0, _ => []
  | _, 0 => []
  | fuel + 1, n + 1 => ((n + 1) % b) :: toDigitsAux b fuel ((n + 1) / b)

/-- Little-endian digits of `n` in base `b`. -/
def toDigitsLE (b n : Nat) : List Nat := toDigitsAux b n n

/-- Base-58 encode a byte sequence (`Base58::encode`). -/
def base58Encode (bytes : List Nat) : List Char :=
  List.replicate (bytes.takeWhile (· == 0)).length '1' ++
    (toDigitsLE 58 (Nat.ofDigits 256 bytes.reverse)).reverse.map digitChar

/-- Translate every character to its base-58 digit; `none` if any character
is outside the alphabet. -/
def decodeDigits : List Char → Option (List Nat)
  | [] => some []
  | c :: cs => (charDigit c).bind fun d => (decodeDigits cs).map fun ds => d :: ds

/-- Base-58 decode (`Base58::decode`): `none` on a character outside the
alphabet, otherwise the decoded bytes (of any length). -/
def base58Decode (s : List Char) : Option (List Nat) :=
  (decodeDigits s).map fun ds =>
    List.replicate (s.takeWhile (· == '1')).length 0 ++
      (toDigitsLE 256 (Nat.ofDigits 58 ds.reverse)).reverse

/-! ### The canonical digest -/

/-- A Rust `[u8; 32]`: 32 entries, each a byte. -/
def ValidBytes (l : List Nat) : Prop := l.length = 32 ∧ ∀ b ∈ l, b < 256

instance (l : List Nat) : Decidable (ValidBytes l) := by
  unfold ValidBytes; infer_instance

/-- Source `pub struct Digest([u8; 32])` — a representation of a 32 byte digest. -/
structure Digest where
  bytes : List Nat
  deriving DecidableEq

/-- Source `Digest::ZERO`. -/
def Digest.ZERO : Digest := ⟨List.replicate 32 0⟩

/-- Source `Digest::new` — infallible exact copy. -/
def Digest.new (digest : List Nat) : Digest := ⟨digest⟩

/-- Source `Digest::inner` — read-only access to the raw bytes. -/
def Digest.inner (d : Digest) : List Nat := d.bytes

/-- Source `Digest::into_inner` — owned extraction of the raw bytes. -/
def Digest.into_inner (d : Digest) : List Nat := d.bytes

/-- The derived `Default` for `Digest` (the `[u8; 32]` default: all zero). -/
def Digest.default : Digest := ⟨List.replicate 32 0⟩

/-- Rust's derived `Ord` on `[u8; 32]`: element-wise comparison, first
differing byte decides. -/
def bytesCmp : List Nat → List Nat → Ordering
  | [], [] => .eq
  | [], _ :: _ => .lt
  | _ :: _, [] => .gt
  | a :: as, b :: bs =>
    if a < b then .lt else if b < a then .gt else bytesCmp as bs

/-- The derived `Ord` on `Digest` (compares the single `[u8; 32]` field). -/
def Digest.cmp (a b : Digest) : Ordering := bytesCmp a.bytes b.bytes

/-- Source `a < b` for `Digest` under the derived `PartialOrd`/`Ord`. -/
def Digest.lt (a b : Digest) : Prop := Digest.cmp a b = .lt

/-- Source `Display for Digest`: the base-58 encoding of the raw bytes. -/
def Digest.displayFmt (d : Digest) : List Char := base58Encode d.bytes

/-- Source `Debug for Digest`: delegates to `Display`. -/
def Digest.debugFmt (d : Digest) : List Char := d.displayFmt

/-! ### Outcome of `FromStr::from_str`

The three `from_str` implementations in `digests.rs` run
`result.copy_from_slice(&Base58::decode(s)?)` into a 32-byte buffer;
`copy_from_slice` panics when the source length differs from 32, so a panic
is a possible outcome distinct from `Err`. -/

inductive ParseOutcome (α : Type) where
  | ok (val : α)
  | err
  | panicked
  deriving DecidableEq

/-- Source `SuiError` (from `crates/sui-types/src/error.rs`, outside this tree).
Modelled from the spec: "a domain error enumeration providing an
'invalid digest' variant reused across Transaction and Object slice-conversion
failures"; only the variant named by `digests.rs` is modelled. -/
inductive SuiError where
  | InvalidTransactionDigest
  deriving DecidableEq

/-! ### CheckpointDigest -/

/-- Source `pub struct CheckpointDigest(Digest)`. -/
structure CheckpointDigest where
  toDigest : Digest
  deriving DecidableEq

/-- Source `CheckpointDigest::new`. -/
def CheckpointDigest.new (digest : List Nat) : CheckpointDigest :=
  ⟨Digest.new digest⟩

/-- Source `CheckpointDigest::inner`. -/
def CheckpointDigest.inner (d : CheckpointDigest) : List Nat :=
  d.toDigest.inner

/-- Source `CheckpointDigest::into_inner`. -/
def CheckpointDigest.into_inner (d : CheckpointDigest) : List Nat :=
  d.toDigest.into_inner

/-- The derived `Default` for `CheckpointDigest` (defaults the inner
`Digest`). -/
def CheckpointDigest.default : CheckpointDigest := ⟨Digest.default⟩

/-- Derived `Ord`: compares the single `Digest` field. -/
def CheckpointDigest.lt (a b : CheckpointDigest) : Prop :=
  Digest.lt a.toDigest b.toDigest

/-- Source `Display for CheckpointDigest`: delegates to the inner digest. -/
def CheckpointDigest.displayFmt (d : CheckpointDigest) : List Char :=
  d.toDigest.displayFmt

/-- Source `Debug for CheckpointDigest`:
`f.debug_tuple("CheckpointDigest").field(&self.0)`. -/
def CheckpointDigest.debugFmt (d : CheckpointDigest) : List Char :=
  "CheckpointDigest(".toList ++ d.toDigest.debugFmt ++ [')']

/-- Source `FromStr for CheckpointDigest`: base-58 decode (error on invalid text),
then `copy_from_slice` into a 32-byte buffer, which panics when the decoded
length is not 32. -/
def CheckpointDigest.from_str (s : List Char) : ParseOutcome CheckpointDigest :=
  match base58Decode s with
  | none => .err
  | some decoded =>
    if decoded.length = 32 then .ok (CheckpointDigest.new decoded) else .panicked

/-! ### CheckpointContentsDigest -/

/-- Source `pub struct CheckpointContentsDigest(Digest)` — no `Default`, no
constants. -/
structure CheckpointContentsDigest where
  toDigest : Digest
  deriving DecidableEq

/-- Source `CheckpointContentsDigest::new`. -/
def CheckpointContentsDigest.new (digest : List Nat) : CheckpointContentsDigest :=
  ⟨Digest.new digest⟩

/-- Source `CheckpointContentsDigest::inner`. -/
def CheckpointContentsDigest.inner (d : CheckpointContentsDigest) : List Nat :=
  d.toDigest.inner

/-- Source `CheckpointContentsDigest::into_inner`. -/
def CheckpointContentsDigest.into_inner (d : CheckpointContentsDigest) : List Nat :=
  d.toDigest.into_inner

/-- Derived `Ord`: compares the single `Digest` field. -/
def CheckpointContentsDigest.lt (a b : CheckpointContentsDigest) : Prop :=
  Digest.lt a.toDigest b.toDigest

/-- Source `Display for CheckpointContentsDigest`: delegates to the inner digest. -/
def CheckpointContentsDigest.displayFmt (d : CheckpointContentsDigest) : List Char :=
  d.toDigest.displayFmt

/-- Source `Debug for CheckpointContentsDigest`:
`f.debug_tuple("CheckpointContentsDigest").field(&self.0)`. -/
def CheckpointContentsDigest.debugFmt (d : CheckpointContentsDigest) : List Char :=
  "CheckpointContentsDigest(".toList ++ d.toDigest.debugFmt ++ [')']

/-! ### TransactionDigest -/

/-- Source `pub struct TransactionDigest(Digest)`. -/
structure TransactionDigest where
  toDigest : Digest
  deriving DecidableEq

/-- Source `TransactionDigest::ZERO`. -/
def TransactionDigest.ZERO : TransactionDigest := ⟨Digest.ZERO⟩

/-- Source `impl Default for TransactionDigest`: `Self::ZERO`. -/
def TransactionDigest.default : TransactionDigest := TransactionDigest.ZERO

/-- Source `TransactionDigest::new`. -/
def TransactionDigest.new (digest : List Nat) : TransactionDigest :=
  ⟨Digest.new digest⟩

/-- Source `TransactionDigest::genesis`: `Self::ZERO`. -/
def TransactionDigest.genesis : TransactionDigest := TransactionDigest.ZERO

/-- Source `TransactionDigest::inner`. -/
def TransactionDigest.inner (d : TransactionDigest) : List Nat :=
  d.toDigest.inner

/-- Source `TransactionDigest::into_inner`. -/
def TransactionDigest.into_inner (d : TransactionDigest) : List Nat :=
  d.toDigest.into_inner

/-- Derived `Ord`: compares the single `Digest` field. -/
def TransactionDigest.lt (a b : TransactionDigest) : Prop :=
  Digest.lt a.toDigest b.toDigest

/-- Source `Display for TransactionDigest`: delegates to the inner digest. -/
def TransactionDigest.displayFmt (d : TransactionDigest) : List Char :=
  d.toDigest.displayFmt

/-- Source `Debug for TransactionDigest`:
`f.debug_tuple("TransactionDigest").field(&self.0)`. -/
def TransactionDigest.debugFmt (d : TransactionDigest) : List Char :=
  "TransactionDigest(".toList ++ d.toDigest.debugFmt ++ [')']

/-- Source `TryFrom<&[u8]> for TransactionDigest`: `bytes.try_into()` succeeds
exactly when the slice length is 32, otherwise
`SuiError::InvalidTransactionDigest`. -/
def TransactionDigest.try_from (bytes : List Nat) :
    Except SuiError TransactionDigest :=
  if bytes.length = 32 then .ok (TransactionDigest.new bytes)
  else .error .InvalidTransactionDigest

/-- Source `FromStr for TransactionDigest`: base-58 decode (error on invalid text),
then `copy_from_slice` into a 32-byte buffer, which panics when the decoded
length is not 32. -/
def TransactionDigest.from_str (s : List Char) : ParseOutcome TransactionDigest :=
  match base58Decode s with
  | none => .err
  | some decoded =>
    if decoded.length = 32 then .ok (TransactionDigest.new decoded) else .panicked

/-! ### TransactionEffectsDigest -/

/-- Source `pub struct TransactionEffectsDigest(Digest)`. -/
structure TransactionEffectsDigest where
  toDigest : Digest
  deriving DecidableEq

/-- Source `TransactionEffectsDigest::ZERO`. -/
def TransactionEffectsDigest.ZERO : TransactionEffectsDigest := ⟨Digest.ZERO⟩

/-- Source `TransactionEffectsDigest::new`. -/
def TransactionEffectsDigest.new (digest : List Nat) : TransactionEffectsDigest :=
  ⟨Digest.new digest⟩

/-- Source `TransactionEffectsDigest::inner`. -/
def TransactionEffectsDigest.inner (d : TransactionEffectsDigest) : List Nat :=
  d.toDigest.inner

/-- Source `TransactionEffectsDigest::into_inner`. -/
def TransactionEffectsDigest.into_inner (d : TransactionEffectsDigest) : List Nat :=
  d.toDigest.into_inner

/-- Derived `Ord`: compares the single `Digest` field. -/
def TransactionEffectsDigest.lt (a b : TransactionEffectsDigest) : Prop :=
  Digest.lt a.toDigest b.toDigest

/-- Source `Display for TransactionEffectsDigest`: delegates to the inner digest. -/
def TransactionEffectsDigest.displayFmt (d : TransactionEffectsDigest) : List Char :=
  d.toDigest.displayFmt

/-- Source `Debug for TransactionEffectsDigest`:
`f.debug_tuple("TransactionEffectsDigest").field(&self.0)`. -/
def TransactionEffectsDigest.debugFmt (d : TransactionEffectsDigest) : List Char :=
  "TransactionEffectsDigest(".toList ++ d.toDigest.debugFmt ++ [')']

/-! ### TransactionEventsDigest

Only `new`, `ZERO`, `random` and `Debug` exist in the source; there is no
`Display`, no `inner`/`into_inner`, no byte-slice or string conversion. -/

/-- Source `pub struct TransactionEventsDigest(Digest)`. -/
structure TransactionEventsDigest where
  toDigest : Digest
  deriving DecidableEq

/-- Source `TransactionEventsDigest::ZERO`. -/
def TransactionEventsDigest.ZERO : TransactionEventsDigest := ⟨Digest.ZERO⟩

/-- Source `TransactionEventsDigest::new`. -/
def TransactionEventsDigest.new (digest : List Nat) : TransactionEventsDigest :=
  ⟨Digest.new digest⟩

/-- Derived `Ord`: compares the single `Digest` field. -/
def TransactionEventsDigest.lt (a b : TransactionEventsDigest) : Prop :=
  Digest.lt a.toDigest b.toDigest

/-- Source `Debug for TransactionEventsDigest`:
`f.debug_tuple("TransactionEventsDigest").field(&self.0)`. -/
def TransactionEventsDigest.debugFmt (d : TransactionEventsDigest) : List Char :=
  "TransactionEventsDigest(".toList ++ d.toDigest.debugFmt ++ [')']

/-! ### ObjectDigest -/

/-- Source `pub struct ObjectDigest(Digest)`. -/
structure ObjectDigest where
  toDigest : Digest
  deriving DecidableEq

/-- Source `ObjectDigest::new`. -/
def ObjectDigest.new (digest : List Nat) : ObjectDigest := ⟨Digest.new digest⟩

/-- Source `ObjectDigest::MIN` — `[u8::MIN; 32]`, all bytes zero. -/
def ObjectDigest.MIN : ObjectDigest := ObjectDigest.new (List.replicate 32 0)

/-- Source `ObjectDigest::MAX` — `[u8::MAX; 32]`, all bytes 255. -/
def ObjectDigest.MAX : ObjectDigest := ObjectDigest.new (List.replicate 32 255)

/-- Source `ObjectDigest::OBJECT_DIGEST_DELETED_BYTE_VAL`. -/
def ObjectDigest.OBJECT_DIGEST_DELETED_BYTE_VAL : Nat := 99

/-- Source `ObjectDigest::OBJECT_DIGEST_WRAPPED_BYTE_VAL`. -/
def ObjectDigest.OBJECT_DIGEST_WRAPPED_BYTE_VAL : Nat := 88

/-- Source `ObjectDigest::OBJECT_DIGEST_DELETED` — marker that the object is
deleted; all 32 bytes equal 99. -/
def ObjectDigest.OBJECT_DIGEST_DELETED : ObjectDigest :=
  ObjectDigest.new (List.replicate 32 ObjectDigest.OBJECT_DIGEST_DELETED_BYTE_VAL)

/-- Source `ObjectDigest::OBJECT_DIGEST_WRAPPED` — marker that the object is
wrapped; all 32 bytes equal 88. -/
def ObjectDigest.OBJECT_DIGEST_WRAPPED : ObjectDigest :=
  ObjectDigest.new (List.replicate 32 ObjectDigest.OBJECT_DIGEST_WRAPPED_BYTE_VAL)

/-- Source `ObjectDigest::inner`. -/
def ObjectDigest.inner (d : ObjectDigest) : List Nat := d.toDigest.inner

/-- Source `ObjectDigest::into_inner`. -/
def ObjectDigest.into_inner (d : ObjectDigest) : List Nat :=
  d.toDigest.into_inner

/-- Source `ObjectDigest::is_alive`:
`*self != OBJECT_DIGEST_DELETED && *self != OBJECT_DIGEST_WRAPPED`. -/
def ObjectDigest.is_alive (d : ObjectDigest) : Bool :=
  d != ObjectDigest.OBJECT_DIGEST_DELETED &&
    d != ObjectDigest.OBJECT_DIGEST_WRAPPED

/-- Derived `Ord`: compares the single `Digest` field. -/
def ObjectDigest.lt (a b : ObjectDigest) : Prop :=
  Digest.lt a.toDigest b.toDigest

/-- Source `Display for ObjectDigest`: delegates to the inner digest. -/
def ObjectDigest.displayFmt (d : ObjectDigest) : List Char :=
  d.toDigest.displayFmt

/-- Source `Debug for ObjectDigest`: `write!(f, "o#{}", self.0)`. -/
def ObjectDigest.debugFmt (d : ObjectDigest) : List Char :=
  'o' :: '#' :: d.toDigest.displayFmt

/-- Source `TryFrom<&[u8]> for ObjectDigest`: `bytes.try_into()` succeeds exactly
when the slice length is 32, otherwise `SuiError::InvalidTransactionDigest`
(the same variant as for `TransactionDigest`). -/
def ObjectDigest.try_from (bytes : List Nat) : Except SuiError ObjectDigest :=
  if bytes.length = 32 then .ok (ObjectDigest.new bytes)
  else .error .InvalidTransactionDigest

/-- Source `FromStr for ObjectDigest`: base-58 decode (error on invalid text), then
`copy_from_slice` into a 32-byte buffer, which panics when the decoded length
is not 32. -/
def ObjectDigest.from_str (s : List Char) : ParseOutcome ObjectDigest :=
  match base58Decode s with
  | none => .err
  | some decoded =>
    if decoded.length = 32 then .ok (ObjectDigest.new decoded) else .panicked

/-! ### API-surface record

Trait implementations are compile-time facts of the Rust source; the
following transcriptions record, per domain kind, which of the relevant
items `digests.rs` declares. -/

/-- The six domain digest kinds. -/
inductive DigestKind where
  | checkpoint
  | checkpointContents
  | transaction
  | transactionEffects
  | transactionEvents
  | object
  deriving DecidableEq

/-- Which kinds have a `Default` implementation in `digests.rs`:
`CheckpointDigest` derives it, `TransactionDigest` implements it manually;
no other kind has one. -/
def hasDefaultImpl : DigestKind → Bool
  | .checkpoint => true
  | .transaction => true
  | _ => false

/-- Which kinds have a `Display` implementation in `digests.rs`: all but
`TransactionEventsDigest`. -/
def hasDisplayImpl : DigestKind → Bool
  | .transactionEvents => false
  | _ => true

/-- Which kinds declare a constant literally named `ZERO`:
`TransactionDigest`, `TransactionEffectsDigest` and
`TransactionEventsDigest` do; `CheckpointDigest`,
`CheckpointContentsDigest` and `ObjectDigest` do not. -/
def hasZeroConst : DigestKind → Bool
  | .transaction => true
  | .transactionEffects => true
  | .transactionEvents => true
  | _ => false

/-- The default or all-zero-valued constant each kind's API exposes
(as the inner canonical digest), transcribed from `digests.rs`:
`CheckpointDigest` via its derived `Default`; `CheckpointContentsDigest`
has none (no `Default`, no constants); `TransactionDigest`,
`TransactionEffectsDigest` and `TransactionEventsDigest` via `ZERO`;
`ObjectDigest` via `MIN`. -/
def apiZeroValue : DigestKind → Option Digest
  | .checkpoint => some CheckpointDigest.default.toDigest
  | .checkpointContents => none
  | .transaction => some TransactionDigest.ZERO.toDigest
  | .transactionEffects => some TransactionEffectsDigest.ZERO.toDigest
  | .transactionEvents => some TransactionEventsDigest.ZERO.toDigest
  | .object => some ObjectDigest.MIN.toDigest

/-! ### Codec lemmas: base-58 decode is a left inverse of encode on byte
sequences -/

theorem toDigitsAux_eq_digits {b : Nat} (hb : 1 < b) :
    ∀ fuel n, n ≤ fuel → toDigitsAux b fuel n = Nat.digits b n := by
  intro fuel
  induction fuel with
  | zero =>
    intro n hn
    have hn0 : n = 0 := Nat.le_zero.mp hn
    subst hn0
    simp [toDigitsAux]
  | succ f ih =>
    intro n hn
    match n with
    | 0 => simp [toDigitsAux]
    | m + 1 =>
      have hdiv : (m + 1) / b ≤ f := by
        have h1 : (m + 1) / b < m + 1 := Nat.div_lt_self (Nat.succ_pos m) hb
        omega
      show ((m + 1) % b) :: toDigitsAux b f ((m + 1) / b) = Nat.digits b (m + 1)
      rw [ih _ hdiv, ← Nat.digits_def' hb (Nat.succ_pos m)]

theorem toDigitsLE_eq {b : Nat} (hb : 1 < b) (n : Nat) :
    toDigitsLE b n = Nat.digits b n :=
  toDigitsAux_eq_digits hb n n le_rfl

theorem ofDigits_replicate_zero (b : Nat) :
    ∀ z, Nat.ofDigits b (List.replicate z 0) = 0
  | 0 => rfl
  | z + 1 => by
    rw [List.replicate_succ, Nat.ofDigits_cons, ofDigits_replicate_zero b z]
    simp

theorem charDigit_digitChar : ∀ d, d < 58 → charDigit (digitChar d) = some d := by
  decide

theorem digitChar_ne_one : ∀ d, d < 58 → d ≠ 0 → digitChar d ≠ '1' := by
  decide

theorem decodeDigits_append {s t : List Char} {ds es : List Nat}
    (hs : decodeDigits s = some ds) (ht : decodeDigits t = some es) :
    decodeDigits (s ++ t) = some (ds ++ es) := by
  induction s generalizing ds with
  | nil =>
    simp only [decodeDigits, Option.some.injEq] at hs
    subst hs
    simpa using ht
  | cons c cs ih =>
    simp only [decodeDigits, Option.bind_eq_some, Option.map_eq_some'] at hs
    obtain ⟨d, hd, ds0, hds0, rfl⟩ := hs
    simp only [List.cons_append, decodeDigits, hd, Option.some_bind,
      List.append_eq, ih hds0, Option.map_some']

theorem decodeDigits_replicate_one :
    ∀ z, decodeDigits (List.replicate z '1') = some (List.replicate z 0)
  | 0 => rfl
  | z + 1 => by
    rw [List.replicate_succ, List.replicate_succ]
    simp only [decodeDigits, decodeDigits_replicate_one z]
    rfl

theorem decodeDigits_map_digitChar {D : List Nat} (hD : ∀ d ∈ D, d < 58) :
    decodeDigits (D.map digitChar) = some D := by
  induction D with
  | nil => rfl
  | cons d ds ih =>
    have hd : d < 58 := hD d (List.mem_cons_self d ds)
    have hds : ∀ x ∈ ds, x < 58 := fun x hx => hD x (List.mem_cons_of_mem d hx)
    simp only [List.map_cons, decodeDigits, charDigit_digitChar d hd,
      Option.some_bind, ih hds, Option.map_some']

theorem takeWhile_replicate_append {α : Type} {p : α → Bool} {a : α}
    (ha : p a = true) (z : Nat) (t : List α) :
    List.takeWhile p (List.replicate z a ++ t) =
      List.replicate z a ++ List.takeWhile p t := by
  induction z with
  | zero => simp
  | succ n ih =>
    rw [List.replicate_succ, List.cons_append, List.takeWhile_cons_of_pos ha, ih,
      List.cons_append]

/-- The first element produced by `dropWhile` fails the predicate. -/
theorem dropWhile_cons_not {α : Type} {p : α → Bool} {l : List α} {a : α}
    {as : List α} (h : l.dropWhile p = a :: as) : p a = false := by
  induction l with
  | nil => simp [List.dropWhile] at h
  | cons x xs ih =>
    by_cases hx : p x
    · rw [List.dropWhile_cons_of_pos hx] at h
      exact ih h
    · rw [List.dropWhile_cons_of_neg hx] at h
      cases h
      simpa using hx

/-- Encoding all-zero byte sequences (every byte becomes a '1'). -/
theorem base58_decode_encode_zeros (z : Nat) :
    base58Decode (base58Encode (List.replicate z 0)) =
      some (List.replicate z 0) := by
  have htw : (List.replicate z (0 : Nat)).takeWhile (· == (0 : Nat)) =
      List.replicate z 0 := by
    rw [List.takeWhile_replicate]
    simp
  have hN : Nat.ofDigits 256 (List.replicate z (0 : Nat)).reverse = 0 := by
    rw [List.reverse_replicate]
    exact ofDigits_replicate_zero 256 z
  have henc : base58Encode (List.replicate z 0) = List.replicate z '1' := by
    rw [base58Encode, htw, List.length_replicate, hN]
    have h0 : toDigitsLE 58 0 = [] := rfl
    rw [h0]
    simp
  rw [henc, base58Decode, decodeDigits_replicate_one z]
  simp only [Option.map_some']
  have htw1 : (List.replicate z '1').takeWhile (· == '1') =
      List.replicate z '1' := by
    rw [List.takeWhile_replicate]
    simp
  rw [htw1, List.length_replicate, List.reverse_replicate,
    ofDigits_replicate_zero]
  have h0 : toDigitsLE 256 0 = [] := rfl
  rw [h0]
  simp

/-- Encoding a byte sequence of `z` zero bytes followed by a nonzero byte. -/
theorem base58_decode_encode_cons (z : Nat) (r : Nat) (rs : List Nat)
    (hr : r ≠ 0) (hlt : ∀ x ∈ r :: rs, x < 256) :
    base58Decode (base58Encode (List.replicate z 0 ++ r :: rs)) =
      some (List.replicate z 0 ++ r :: rs) := by
  have h256 : (1 : Nat) < 256 := by norm_num
  have h58 : (1 : Nat) < 58 := by norm_num
  have htw0 : (List.replicate z 0 ++ r :: rs).takeWhile (· == (0 : Nat)) =
      List.replicate z 0 := by
    rw [takeWhile_replicate_append (by simp) z,
      List.takeWhile_cons_of_neg (by simpa using hr), List.append_nil]
  have hN : Nat.ofDigits 256 (List.replicate z 0 ++ r :: rs).reverse =
      Nat.ofDigits 256 (r :: rs).reverse := by
    rw [List.reverse_append, List.reverse_replicate, Nat.ofDigits_append,
      ofDigits_replicate_zero]
    simp
  have hw1 : ∀ l ∈ (r :: rs).reverse, l < 256 := fun l hl =>
    hlt l (List.mem_reverse.mp hl)
  have hw2 : ∀ (h : (r :: rs).reverse ≠ []), ((r :: rs).reverse).getLast h ≠ 0 := by
    intro h
    rw [List.getLast_reverse]
    simpa using hr
  have hdigN : Nat.digits 256 (Nat.ofDigits 256 (r :: rs).reverse) =
      (r :: rs).reverse :=
    Nat.digits_ofDigits 256 h256 _ hw1 hw2
  have hN0 : Nat.ofDigits 256 (r :: rs).reverse ≠ 0 := by
    intro h0
    rw [h0, Nat.digits_zero] at hdigN
    exact absurd hdigN.symm (by simp)
  have hDne : (Nat.digits 58 (Nat.ofDigits 256 (r :: rs).reverse)).reverse ≠ [] := by
    rw [Ne, List.reverse_eq_nil_iff]
    exact Nat.digits_ne_nil_iff_ne_zero.mpr hN0
  obtain ⟨m, Dt, hD⟩ := List.exists_cons_of_ne_nil hDne
  have hlast : (Nat.digits 58 (Nat.ofDigits 256 (r :: rs).reverse)).getLast? =
      some m := by
    rw [← List.head?_reverse, hD]
    rfl
  have hm : m ≠ 0 := by
    have hne : Nat.digits 58 (Nat.ofDigits 256 (r :: rs).reverse) ≠ [] :=
      Nat.digits_ne_nil_iff_ne_zero.mpr hN0
    rw [List.getLast?_eq_getLast _ hne, Option.some.injEq] at hlast
    rw [← hlast]
    exact Nat.getLast_digit_ne_zero 58 hN0
  have hD58 : ∀ d ∈ m :: Dt, d < 58 := by
    intro d hd
    rw [← hD] at hd
    exact Nat.digits_lt_base h58 (List.mem_reverse.mp hd)
  have henc : base58Encode (List.replicate z 0 ++ r :: rs) =
      List.replicate z '1' ++ (m :: Dt).map digitChar := by
    rw [base58Encode, htw0, List.length_replicate, hN, toDigitsLE_eq h58, hD]
  rw [henc, base58Decode,
    decodeDigits_append (decodeDigits_replicate_one z)
      (decodeDigits_map_digitChar hD58)]
  simp only [Option.map_some']
  have htw1 : List.takeWhile (· == '1')
      (List.replicate z '1' ++ (m :: Dt).map digitChar) =
      List.replicate z '1' := by
    rw [takeWhile_replicate_append (by simp) z, List.map_cons,
      List.takeWhile_cons_of_neg, List.append_nil]
    simpa using digitChar_ne_one m (hD58 m (List.mem_cons_self m Dt)) hm
  rw [htw1, List.length_replicate]
  have hval : Nat.ofDigits 58 (List.replicate z 0 ++ m :: Dt).reverse =
      Nat.ofDigits 256 (r :: rs).reverse := by
    rw [List.reverse_append, List.reverse_replicate, Nat.ofDigits_append,
      ofDigits_replicate_zero, ← hD, List.reverse_reverse, Nat.ofDigits_digits]
    simp
  rw [hval, toDigitsLE_eq h256, hdigN, List.reverse_reverse]

/-- Source `Base58::decode ∘ Base58::encode = id` on byte sequences. -/
theorem base58_decode_encode (bytes : List Nat) (hb : ∀ x ∈ bytes, x < 256) :
    base58Decode (base58Encode bytes) = some bytes := by
  have htake : bytes.takeWhile (· == (0 : Nat)) =
      List.replicate (bytes.takeWhile (· == (0 : Nat))).length 0 := by
    rw [List.eq_replicate_iff]
    exact ⟨rfl, fun x hx => by simpa using List.mem_takeWhile_imp hx⟩
  have hsplit := List.takeWhile_append_dropWhile (· == (0 : Nat)) bytes
  rcases hre : bytes.dropWhile (· == (0 : Nat)) with _ | ⟨r, rs⟩
  · have hbytes : bytes =
        List.replicate (bytes.takeWhile (· == (0 : Nat))).length 0 := by
      conv_lhs => rw [← hsplit, hre, List.append_nil, htake]
    rw [hbytes]
    exact base58_decode_encode_zeros _
  · have hr : r ≠ 0 := by
      have := dropWhile_cons_not hre
      simpa using this
    have hlt : ∀ x ∈ r :: rs, x < 256 := by
      intro x hx
      rw [← hre] at hx
      exact hb x ((List.dropWhile_sublist _).subset hx)
    have hbytes : bytes =
        List.replicate (bytes.takeWhile (· == (0 : Nat))).length 0 ++ r :: rs := by
      conv_lhs => rw [← hsplit, hre, htake]
    rw [hbytes]
    exact base58_decode_encode_cons _ r rs hr hlt

/-! ### Ordering lemmas -/

/-- The element-wise comparison of Rust's derived `Ord` reports `lt` exactly
on lexicographically smaller lists. -/
theorem bytesCmp_eq_lt_iff :
    ∀ a b : List Nat, bytesCmp a b = .lt ↔ List.Lex (· < ·) a b := by
  intro a
  induction a with
  | nil =>
    intro b
    cases b with
    | nil => simp [bytesCmp]
    | cons y ys => exact ⟨fun _ => List.Lex.nil, fun _ => rfl⟩
  | cons x xs ih =>
    intro b
    cases b with
    | nil => simp [bytesCmp]
    | cons y ys =>
      show (if x < y then Ordering.lt else if y < x then Ordering.gt
        else bytesCmp xs ys) = Ordering.lt ↔ _
      by_cases hxy : x < y
      · rw [if_pos hxy]
        simpa using List.Lex.rel hxy
      · by_cases hyx : y < x
        · rw [if_neg hxy, if_pos hyx]
          constructor
          · intro h
            exact absurd h (by simp)
          · intro h
            cases h with
            | rel h => omega
            | cons h => omega
        · have hxe : x = y := by omega
          subst hxe
          rw [if_neg hxy, if_neg hyx, ih ys]
          exact (List.Lex.cons_iff).symm

theorem digest_eq_iff (a b : Digest) : a = b ↔ a.bytes = b.bytes := by
  cases a
  cases b
  simp

theorem checkpointDigest_eq_iff (a b : CheckpointDigest) :
    a = b ↔ a.toDigest.bytes = b.toDigest.bytes := by
  obtain ⟨⟨ab⟩⟩ := a
  obtain ⟨⟨bb⟩⟩ := b
  simp

theorem checkpointContentsDigest_eq_iff (a b : CheckpointContentsDigest) :
    a = b ↔ a.toDigest.bytes = b.toDigest.bytes := by
  obtain ⟨⟨ab⟩⟩ := a
  obtain ⟨⟨bb⟩⟩ := b
  simp

theorem transactionDigest_eq_iff (a b : TransactionDigest) :
    a = b ↔ a.toDigest.bytes = b.toDigest.bytes := by
  obtain ⟨⟨ab⟩⟩ := a
  obtain ⟨⟨bb⟩⟩ := b
  simp

theorem transactionEffectsDigest_eq_iff (a b : TransactionEffectsDigest) :
    a = b ↔ a.toDigest.bytes = b.toDigest.bytes := by
  obtain ⟨⟨ab⟩⟩ := a
  obtain ⟨⟨bb⟩⟩ := b
  simp

theorem transactionEventsDigest_eq_iff (a b : TransactionEventsDigest) :
    a = b ↔ a.toDigest.bytes = b.toDigest.bytes := by
  obtain ⟨⟨ab⟩⟩ := a
  obtain ⟨⟨bb⟩⟩ := b
  simp

theorem objectDigest_eq_iff (a b : ObjectDigest) :
    a = b ↔ a.toDigest.bytes = b.toDigest.bytes := by
  obtain ⟨⟨ab⟩⟩ := a
  obtain ⟨⟨bb⟩⟩ := b
  simp

/-- A list wrapped between a prefix and a closing character is never equal to
the bare list (their lengths differ). -/
theorem wrap_ne {α : Type} (pre : List α) (l : List α) (post : α) :
    pre ++ l ++ [post] ≠ l := by
  intro h
  have hlen := congrArg List.length h
  simp [List.length_append] at hlen
  omega

/-! ### Claims -/

/-- C1: the claim says parsing returns an error (and does not panic)
whenever the input has a character outside the base-58 alphabet or decodes
to a length other than 32.  The code satisfies the first half ("0" is not in
the alphabet and errors for all three kinds) but violates the second: "1" is
valid base-58 and decodes to the single byte `[0]`, and
`result.copy_from_slice` then panics instead of returning an error, for
`CheckpointDigest`, `TransactionDigest` and `ObjectDigest` alike. -/
theorem c1_from_str_wrong_length_panics :
    CheckpointDigest.from_str ['1'] = .panicked ∧
      TransactionDigest.from_str ['1'] = .panicked ∧
        ObjectDigest.from_str ['1'] = .panicked ∧
          CheckpointDigest.from_str ['0'] = .err ∧
            TransactionDigest.from_str ['0'] = .err ∧
              ObjectDigest.from_str ['0'] = .err := by
  decide

/-- C2 counterexample: `CheckpointDigest`'s `Debug` output on the all-zero
digest is `CheckpointDigest(11111111111111111111111111111111)`, not the bare
base-58 text, refuting "every other kind produces the bare base-58 text for
both Display and Debug". -/
theorem c2_counterexample :
    CheckpointDigest.debugFmt (CheckpointDigest.new (List.replicate 32 0)) ≠
      base58Encode (List.replicate 32 0) := by
  decide

/-- C2 (amended): `ObjectDigest`'s `Debug` is the base-58 text prefixed
`o#`; every kind's `Display` (implemented for all kinds except
`TransactionEventsDigest`) is the bare base-58 text, and the canonical
`Digest`'s `Debug` equals its `Display`; but each wrapper kind's `Debug` is
its type name wrapped around the base-58 text (`Name(...)`), hence differs
from its `Display`. -/
theorem c2_format_shapes :
    ∀ d : Digest,
      Digest.debugFmt d = Digest.displayFmt d ∧
      Digest.displayFmt d = base58Encode d.bytes ∧
      ObjectDigest.displayFmt ⟨d⟩ = base58Encode d.bytes ∧
      ObjectDigest.debugFmt ⟨d⟩ = 'o' :: '#' :: base58Encode d.bytes ∧
      CheckpointDigest.displayFmt ⟨d⟩ = base58Encode d.bytes ∧
      CheckpointDigest.debugFmt ⟨d⟩ =
        "CheckpointDigest(".toList ++ base58Encode d.bytes ++ [')'] ∧
      CheckpointDigest.debugFmt ⟨d⟩ ≠ CheckpointDigest.displayFmt ⟨d⟩ ∧
      CheckpointContentsDigest.displayFmt ⟨d⟩ = base58Encode d.bytes ∧
      CheckpointContentsDigest.debugFmt ⟨d⟩ =
        "CheckpointContentsDigest(".toList ++ base58Encode d.bytes ++ [')'] ∧
      CheckpointContentsDigest.debugFmt ⟨d⟩ ≠
        CheckpointContentsDigest.displayFmt ⟨d⟩ ∧
      TransactionDigest.displayFmt ⟨d⟩ = base58Encode d.bytes ∧
      TransactionDigest.debugFmt ⟨d⟩ =
        "TransactionDigest(".toList ++ base58Encode d.bytes ++ [')'] ∧
      TransactionDigest.debugFmt ⟨d⟩ ≠ TransactionDigest.displayFmt ⟨d⟩ ∧
      TransactionEffectsDigest.displayFmt ⟨d⟩ = base58Encode d.bytes ∧
      TransactionEffectsDigest.debugFmt ⟨d⟩ =
        "TransactionEffectsDigest(".toList ++ base58Encode d.bytes ++ [')'] ∧
      TransactionEffectsDigest.debugFmt ⟨d⟩ ≠
        TransactionEffectsDigest.displayFmt ⟨d⟩ ∧
      TransactionEventsDigest.debugFmt ⟨d⟩ =
        "TransactionEventsDigest(".toList ++ base58Encode d.bytes ++ [')'] ∧
      hasDisplayImpl DigestKind.transactionEvents = false := by
  intro d
  refine ⟨rfl, rfl, rfl, rfl, rfl, rfl, wrap_ne _ _ _, rfl, rfl, wrap_ne _ _ _,
    rfl, rfl, wrap_ne _ _ _, rfl, rfl, wrap_ne _ _ _, rfl, rfl⟩

/-- C2 witness: the amended claim at the all-zero digest. -/
theorem c2_format_shapes_witness :
    ObjectDigest.debugFmt ⟨Digest.ZERO⟩ =
        'o' :: '#' :: base58Encode Digest.ZERO.bytes ∧
      CheckpointDigest.debugFmt ⟨Digest.ZERO⟩ ≠
        CheckpointDigest.displayFmt ⟨Digest.ZERO⟩ :=
  ⟨(c2_format_shapes Digest.ZERO).2.2.2.1,
    (c2_format_shapes Digest.ZERO).2.2.2.2.2.2.1⟩

/-- C3: for each kind implementing both `Display` and `FromStr`
(`CheckpointDigest`, `TransactionDigest`, `ObjectDigest`), parsing the
`Display` text of a digest returns exactly that digest. -/
theorem c3_parse_display_roundtrip :
    ∀ d : Digest, ValidBytes d.bytes →
      CheckpointDigest.from_str (CheckpointDigest.displayFmt ⟨d⟩) = .ok ⟨d⟩ ∧
        TransactionDigest.from_str (TransactionDigest.displayFmt ⟨d⟩) = .ok ⟨d⟩ ∧
          ObjectDigest.from_str (ObjectDigest.displayFmt ⟨d⟩) = .ok ⟨d⟩ := by
  intro d hd
  obtain ⟨hlen, hlt⟩ := hd
  have hdec := base58_decode_encode d.bytes hlt
  refine ⟨?_, ?_, ?_⟩ <;>
    simp [CheckpointDigest.from_str, TransactionDigest.from_str,
      ObjectDigest.from_str, CheckpointDigest.displayFmt,
      TransactionDigest.displayFmt, ObjectDigest.displayFmt,
      Digest.displayFmt, hdec, hlen, CheckpointDigest.new,
      TransactionDigest.new, ObjectDigest.new, Digest.new]

/-- C3 witness: the round trip at the all-zero digest. -/
theorem c3_parse_display_roundtrip_witness :
    ValidBytes Digest.ZERO.bytes ∧
      TransactionDigest.from_str (TransactionDigest.displayFmt ⟨Digest.ZERO⟩) =
        .ok ⟨Digest.ZERO⟩ :=
  ⟨by decide, (c3_parse_display_roundtrip Digest.ZERO (by decide)).2.1⟩

/-- C4: `TryFrom<&[u8]>` on `TransactionDigest` and `ObjectDigest` fails
with the shared `SuiError::InvalidTransactionDigest` value exactly when the
slice length is not 32, and succeeds on length-32 slices with the digest
carrying exactly those bytes. -/
theorem c4_try_from_length :
    ∀ bytes : List Nat,
      (bytes.length ≠ 32 →
        TransactionDigest.try_from bytes =
            .error SuiError.InvalidTransactionDigest ∧
          ObjectDigest.try_from bytes =
            .error SuiError.InvalidTransactionDigest) ∧
        (bytes.length = 32 →
          TransactionDigest.try_from bytes = .ok (TransactionDigest.new bytes) ∧
            (TransactionDigest.new bytes).into_inner = bytes ∧
              ObjectDigest.try_from bytes = .ok (ObjectDigest.new bytes) ∧
                (ObjectDigest.new bytes).into_inner = bytes) := by
  intro bytes
  constructor
  · intro h
    exact ⟨by simp [TransactionDigest.try_from, h],
      by simp [ObjectDigest.try_from, h]⟩
  · intro h
    exact ⟨by simp [TransactionDigest.try_from, h], rfl,
      by simp [ObjectDigest.try_from, h], rfl⟩

/-- C4 witness: a 31-byte slice fails, a 32-byte slice succeeds. -/
theorem c4_try_from_length_witness :
    TransactionDigest.try_from (List.replicate 31 0) =
        .error SuiError.InvalidTransactionDigest ∧
      ObjectDigest.try_from (List.replicate 32 7) =
        .ok (ObjectDigest.new (List.replicate 32 7)) :=
  ⟨((c4_try_from_length (List.replicate 31 0)).1 (by decide)).1,
    ((c4_try_from_length (List.replicate 32 7)).2 (by decide)).2.2.1⟩

/-- C5: `OBJECT_DIGEST_DELETED` (all bytes 99) and `OBJECT_DIGEST_WRAPPED`
(all bytes 88) are distinct, `is_alive` holds exactly away from those two
values, and `MIN` and `MAX` are alive. -/
theorem c5_sentinels :
    ObjectDigest.OBJECT_DIGEST_DELETED ≠ ObjectDigest.OBJECT_DIGEST_WRAPPED ∧
      (∀ d : ObjectDigest,
        d.is_alive = true ↔
          d ≠ ObjectDigest.OBJECT_DIGEST_DELETED ∧
            d ≠ ObjectDigest.OBJECT_DIGEST_WRAPPED) ∧
        ObjectDigest.MIN.is_alive = true ∧
          ObjectDigest.MAX.is_alive = true ∧
            ObjectDigest.OBJECT_DIGEST_DELETED.toDigest.bytes =
                List.replicate 32 99 ∧
              ObjectDigest.OBJECT_DIGEST_WRAPPED.toDigest.bytes =
                List.replicate 32 88 := by
  refine ⟨by decide, ?_, by decide, by decide, rfl, rfl⟩
  intro d
  simp [ObjectDigest.is_alive]

/-- C5 witness: the liveness equivalence applied at `MIN`. -/
theorem c5_sentinels_witness :
    ObjectDigest.MIN ≠ ObjectDigest.OBJECT_DIGEST_DELETED ∧
      ObjectDigest.MIN ≠ ObjectDigest.OBJECT_DIGEST_WRAPPED :=
  (c5_sentinels.2.1 ObjectDigest.MIN).mp c5_sentinels.2.2.1

/-- C6: `TransactionDigest::default()`, `TransactionDigest::genesis()` and
`TransactionDigest::ZERO` are the same value, whose raw 32 bytes are all
zero. -/
theorem c6_genesis_identity :
    TransactionDigest.default = TransactionDigest.genesis ∧
      TransactionDigest.genesis = TransactionDigest.ZERO ∧
        TransactionDigest.ZERO.into_inner = List.replicate 32 0 :=
  ⟨rfl, rfl, rfl⟩

/-- C7: `CheckpointContentsDigest` exposes no default or zero value, while
`CheckpointDigest` (via its derived `Default`), `ObjectDigest` (via `MIN`),
`TransactionDigest` and `TransactionEffectsDigest` (via `ZERO`) each expose
an all-zero value. -/
theorem c7_zero_value_surface :
    apiZeroValue DigestKind.checkpointContents = none ∧
      apiZeroValue DigestKind.checkpoint = some ⟨List.replicate 32 0⟩ ∧
        apiZeroValue DigestKind.object = some ⟨List.replicate 32 0⟩ ∧
          apiZeroValue DigestKind.transaction = some ⟨List.replicate 32 0⟩ ∧
            apiZeroValue DigestKind.transactionEffects =
              some ⟨List.replicate 32 0⟩ :=
  ⟨rfl, rfl, rfl, rfl, rfl⟩

/-- C8: for every kind of the family, `<` under the derived ordering holds
exactly when the underlying 32-byte sequences compare lexicographically, and
equality holds exactly when the byte sequences are identical. -/
theorem c8_order_iff_lex :
    (∀ a b : Digest,
      (Digest.lt a b ↔ List.Lex (· < ·) a.bytes b.bytes) ∧
        (a = b ↔ a.bytes = b.bytes)) ∧
      (∀ a b : CheckpointDigest,
        (CheckpointDigest.lt a b ↔
            List.Lex (· < ·) a.toDigest.bytes b.toDigest.bytes) ∧
          (a = b ↔ a.toDigest.bytes = b.toDigest.bytes)) ∧
        (∀ a b : CheckpointContentsDigest,
          (CheckpointContentsDigest.lt a b ↔
              List.Lex (· < ·) a.toDigest.bytes b.toDigest.bytes) ∧
            (a = b ↔ a.toDigest.bytes = b.toDigest.bytes)) ∧
          (∀ a b : TransactionDigest,
            (TransactionDigest.lt a b ↔
                List.Lex (· < ·) a.toDigest.bytes b.toDigest.bytes) ∧
              (a = b ↔ a.toDigest.bytes = b.toDigest.bytes)) ∧
            (∀ a b : TransactionEffectsDigest,
              (TransactionEffectsDigest.lt a b ↔
                  List.Lex (· < ·) a.toDigest.bytes b.toDigest.bytes) ∧
                (a = b ↔ a.toDigest.bytes = b.toDigest.bytes)) ∧
              (∀ a b : TransactionEventsDigest,
                (TransactionEventsDigest.lt a b ↔
                    List.Lex (· < ·) a.toDigest.bytes b.toDigest.bytes) ∧
                  (a = b ↔ a.toDigest.bytes = b.toDigest.bytes)) ∧
                (∀ a b : ObjectDigest,
                  (ObjectDigest.lt a b ↔
                      List.Lex (· < ·) a.toDigest.bytes b.toDigest.bytes) ∧
                    (a = b ↔ a.toDigest.bytes = b.toDigest.bytes)) :=
  ⟨fun a b => ⟨bytesCmp_eq_lt_iff a.bytes b.bytes, digest_eq_iff a b⟩,
    fun a b => ⟨bytesCmp_eq_lt_iff _ _, checkpointDigest_eq_iff a b⟩,
    fun a b => ⟨bytesCmp_eq_lt_iff _ _, checkpointContentsDigest_eq_iff a b⟩,
    fun a b => ⟨bytesCmp_eq_lt_iff _ _, transactionDigest_eq_iff a b⟩,
    fun a b => ⟨bytesCmp_eq_lt_iff _ _, transactionEffectsDigest_eq_iff a b⟩,
    fun a b => ⟨bytesCmp_eq_lt_iff _ _, transactionEventsDigest_eq_iff a b⟩,
    fun a b => ⟨bytesCmp_eq_lt_iff _ _, objectDigest_eq_iff a b⟩⟩

/-- C8 witness: a digest starting with byte 0 is below one starting with
byte 1 under the derived order. -/
theorem c8_order_iff_lex_witness :
    Digest.lt (Digest.new (0 :: List.replicate 31 0))
      (Digest.new (1 :: List.replicate 31 0)) :=
  ((c8_order_iff_lex.1 (Digest.new (0 :: List.replicate 31 0))
      (Digest.new (1 :: List.replicate 31 0))).1).mpr
    (List.Lex.rel (by norm_num))

/-- C9: for every kind providing them, `new` followed by
`into_inner`/`inner` returns exactly the input bytes, and rebuilding a
digest from its extracted bytes yields the original digest
(`TransactionEventsDigest` provides no extraction and is omitted). -/
theorem c9_new_inner_roundtrip :
    (∀ b : List Nat,
      (Digest.new b).into_inner = b ∧ (Digest.new b).inner = b ∧
        (CheckpointDigest.new b).into_inner = b ∧
          (CheckpointDigest.new b).inner = b ∧
            (CheckpointContentsDigest.new b).into_inner = b ∧
              (CheckpointContentsDigest.new b).inner = b ∧
                (TransactionDigest.new b).into_inner = b ∧
                  (TransactionDigest.new b).inner = b ∧
                    (TransactionEffectsDigest.new b).into_inner = b ∧
                      (TransactionEffectsDigest.new b).inner = b ∧
                        (ObjectDigest.new b).into_inner = b ∧
                          (ObjectDigest.new b).inner = b) ∧
      (∀ d : Digest, Digest.new d.into_inner = d) ∧
        (∀ d : CheckpointDigest, CheckpointDigest.new d.into_inner = d) ∧
          (∀ d : CheckpointContentsDigest,
            CheckpointContentsDigest.new d.into_inner = d) ∧
            (∀ d : TransactionDigest, TransactionDigest.new d.into_inner = d) ∧
              (∀ d : TransactionEffectsDigest,
                TransactionEffectsDigest.new d.into_inner = d) ∧
                (∀ d : ObjectDigest, ObjectDigest.new d.into_inner = d) :=
  ⟨fun _ => ⟨rfl, rfl, rfl, rfl, rfl, rfl, rfl, rfl, rfl, rfl, rfl, rfl⟩,
    fun _ => rfl, fun _ => rfl, fun _ => rfl, fun _ => rfl, fun _ => rfl,
    fun _ => rfl⟩

/-- C9 witness: the bytes round trip at a concrete 32-byte array. -/
theorem c9_new_inner_roundtrip_witness :
    (ObjectDigest.new (List.replicate 32 42)).into_inner =
      List.replicate 32 42 :=
  (c9_new_inner_roundtrip.1 (List.replicate 32 42)).2.2.2.2.2.2.2.2.2.2.1

/-- C10: the derived defaults of the canonical `Digest` and of
`CheckpointDigest` are the all-zero digest (`Digest::ZERO`), even though
`CheckpointDigest` declares no constant named `ZERO`; `CheckpointDigest` and
`TransactionDigest` are the only domain kinds with a `Default`
implementation. -/
theorem c10_default_surface :
    Digest.default = Digest.ZERO ∧
      CheckpointDigest.default.toDigest = Digest.ZERO ∧
        CheckpointDigest.default.toDigest.bytes = List.replicate 32 0 ∧
          hasZeroConst DigestKind.checkpoint = false ∧
            (∀ k : DigestKind,
              hasDefaultImpl k = true ↔
                (k = DigestKind.checkpoint ∨ k = DigestKind.transaction)) := by
  refine ⟨rfl, rfl, rfl, rfl, ?_⟩
  intro k
  cases k <;> simp [hasDefaultImpl]

/-- C10 witness: `CheckpointDigest` has a `Default` implementation. -/
theorem c10_default_surface_witness :
    hasDefaultImpl DigestKind.checkpoint = true :=
  (c10_default_surface.2.2.2.2 DigestKind.checkpoint).mpr (Or.inl rfl)

end Sui
